import Mathlib

/-!
Shallow embedding of the core of the `claude-code-go` repository
(`pkg/claude/errors.go`, `pkg/claude/buffer/buffer.go`,
`pkg/claude/buffer/recovery.go`, and the client retry / streaming
code), together with theorems settling the frozen claims C1..C10.

Modelling conventions:
* Go byte slices are modelled as `List Char`, Go strings as `String`.
* Go `int`/`int64` sizes and counters are modelled as `ℕ` (the code
  only ever uses non-negative values for them); exit codes as `ℤ`.
* `float64` durations are modelled as exact rationals `ℚ` measured in
  nanoseconds; every concrete constant appearing in the claims
  (100ms, 2.0, 5s, powers of two) is exactly representable in
  `float64`, so the rational computation agrees with the Go one there.
* `map[string]interface{}` detail maps are modelled by a record of the
  exactly three keys the source ever stores (`suggestion`, `stderr`,
  `retry_after`).
* Go's Unicode-aware `strings.ToLower` / `strings.TrimSpace` agree
  with the ASCII `Char.toLower` / `String.trim` used here on every
  ASCII input, which covers all diagnostic keywords of the source.
-/

/-- `strings.Contains` on character lists: `containsSub hay sub` is true
iff `sub` occurs as a contiguous substring of `hay` (true for `sub = []`). -/
def containsSub : List Char → List Char → Bool
  | hay, sub =>
    if sub.isPrefixOf hay then true
    else
      match hay with
      | [] => false
      | _ :: t => containsSub t sub

/-- `strings.Contains` on strings. -/
def strContains (hay sub : String) : Bool :=
  containsSub hay.data sub.data

/-- `containsAny` from `errors.go`: true if the haystack contains any of
the needles. -/
def containsAny (haystack : String) (needles : List String) : Bool :=
  needles.any fun n => strContains haystack n

/-- `strings.ToLower` (ASCII fragment, which is all the source's keyword
matching relies on). -/
def goToLower (s : String) : String :=
  ⟨s.data.map Char.toLower⟩

/-- Drop leading and trailing whitespace from a character list. -/
def trimList (l : List Char) : List Char :=
  ((l.dropWhile Char.isWhitespace).reverse.dropWhile Char.isWhitespace).reverse

/-- `strings.TrimSpace` (ASCII fragment). -/
def goTrimSpace (s : String) : String :=
  ⟨trimList s.data⟩

/-- The first element of `strings.Split(s, "\n")`: the text up to the
first newline (the whole text when there is no newline). -/
def firstLine (s : String) : String :=
  ⟨s.data.takeWhile fun c => c ≠ '\n'⟩

/-- `ErrorType` from `errors.go` (the closed error taxonomy). -/
inductive ErrorType where
  | unknown
  | authentication
  | rateLimit
  | permission
  | command
  | network
  | mcp
  | validation
  | timeout
  | session
deriving DecidableEq

/-- `ErrorType.IsRetryable` from `errors.go`: type-level retryability. -/
def ErrorType.IsRetryable : ErrorType → Bool
  | .rateLimit => true
  | .network => true
  | .timeout => true
  | .mcp => true
  | _ => false

/-- The `Details` map of a `ClaudeError`, restricted to the three keys the
source ever writes (`suggestion`, `stderr`, `retry_after`). `none` models
the key being absent from the Go map. -/
structure ErrDetails where
  suggestion : Option String := none
  stderrText : Option String := none
  retryAfter : Option Nat := none
deriving DecidableEq

/-- `ClaudeError` from `errors.go`. The `Original error` field (used only
for Go error unwrapping) is not modelled. -/
structure ClaudeError where
  type : ErrorType
  message : String
  code : Int := 0
  details : ErrDetails := {}
deriving DecidableEq

/-- Connection-oriented keyword list of `isMCPConnectionError`. -/
def mcpConnectionKeywords : List String :=
  ["connection", "connect", "timeout", "refused", "unreachable",
   "network", "socket", "pipe", "broken pipe"]

/-- Configuration-oriented keyword list of `isMCPConnectionError`. -/
def mcpConfigKeywords : List String :=
  ["configuration", "config", "invalid", "not found", "permission",
   "authentication", "unauthorized", "forbidden"]

/-- `ClaudeError.isMCPConnectionError` from `errors.go`: inspects the
error's `Message` field (lower-cased); connection keywords win, then
configuration keywords, defaulting to retryable. -/
def ClaudeError.isMCPConnectionError (e : ClaudeError) : Bool :=
  let lowerMsg := goToLower e.message
  if containsAny lowerMsg mcpConnectionKeywords then true
  else if containsAny lowerMsg mcpConfigKeywords then false
  else true

/-- `ClaudeError.IsRetryable` from `errors.go`. -/
def ClaudeError.IsRetryable (e : ClaudeError) : Bool :=
  if !e.type.IsRetryable then false
  else if e.type = ErrorType.mcp then e.isMCPConnectionError
  else true

/-- `ClaudeError.RetryDelay` from `errors.go` (seconds). -/
def ClaudeError.RetryDelay (e : ClaudeError) : Nat :=
  match e.type with
  | .rateLimit =>
    match e.details.retryAfter with
    | some seconds => seconds
    | none => 60
  | .network => 5
  | .timeout => 5
  | .mcp => if e.isMCPConnectionError then 3 else 0
  | _ => 0

/-- Digits-to-number conversion used to model `strconv.Atoi` on the digit
runs captured by `extractRetryAfter` (the source ignores parse failures,
and a captured run is always all digits). -/
def digitsToNat (ds : List Char) : Nat :=
  ds.foldl (fun a c => a * 10 + (c.toNat - 48)) 0

/-- Strip a literal token from the front of a character list. -/
def stripToken (tok l : List Char) : Option (List Char) :=
  if tok.isPrefixOf l then some (l.drop tok.length) else none

/-- Parse a non-empty leading digit run (the `(\d+)` capture group). -/
def parseLeadingNum (l : List Char) : Option Nat :=
  let ds := l.takeWhile Char.isDigit
  if ds.isEmpty then none else some (digitsToNat ds)

/-- Leftmost-match scan: try the matcher at every start position from the
left, as Go's `regexp.FindStringSubmatch` does for these patterns. -/
def firstMatch (m : List Char → Option Nat) : List Char → Option Nat
  | [] => m []
  | c :: rest =>
    match m (c :: rest) with
    | some v => some v
    | none => firstMatch m rest

/-- Matcher for `retry after (\d+)`. -/
def matchRetryAfter1 (l : List Char) : Option Nat :=
  (stripToken "retry after ".data l).bind parseLeadingNum

/-- Matcher for `retry-after:?\s*(\d+)`. -/
def matchRetryAfter2 (l : List Char) : Option Nat :=
  (stripToken "retry-after".data l).bind fun r =>
    let r1 := match r with
      | ':' :: t => t
      | _ => r
    parseLeadingNum (r1.dropWhile Char.isWhitespace)

/-- Matcher for `wait (\d+) seconds`. -/
def matchRetryAfter3 (l : List Char) : Option Nat :=
  (stripToken "wait ".data l).bind fun r =>
    let ds := r.takeWhile Char.isDigit
    if ds.isEmpty then none
    else if " seconds".data.isPrefixOf (r.drop ds.length) then
      some (digitsToNat ds)
    else none

/-- Matcher for `try again in (\d+)`. -/
def matchRetryAfter4 (l : List Char) : Option Nat :=
  (stripToken "try again in ".data l).bind parseLeadingNum

/-- `extractRetryAfter` from `errors.go`: the four case-insensitive
patterns are tried in source order, first pattern with a match anywhere
in the text wins; 0 when nothing matches. Case-insensitivity is modelled
by lower-casing the haystack (the patterns are lower-case ASCII). -/
def extractRetryAfter (stderr : String) : Nat :=
  let cs := (goToLower stderr).data
  match firstMatch matchRetryAfter1 cs with
  | some v => v
  | none =>
    match firstMatch matchRetryAfter2 cs with
    | some v => v
    | none =>
      match firstMatch matchRetryAfter3 cs with
      | some v => v
      | none =>
        match firstMatch matchRetryAfter4 cs with
        | some v => v
        | none => 0

/-- Authentication keyword list of `ParseError`. -/
def authKeywords : List String :=
  ["authentication", "api key", "unauthorized", "401", "forbidden", "403",
   "invalid api key", "missing api key", "anthropic_api_key"]

/-- Rate-limit keyword list of `ParseError`. -/
def rateLimitKeywords : List String :=
  ["rate limit", "too many requests", "429", "quota exceeded",
   "request limit", "usage limit"]

/-- Permission keyword list of `ParseError`. -/
def permissionKeywords : List String :=
  ["permission denied", "not allowed", "tool not permitted",
   "access denied", "insufficient permissions", "unauthorized tool"]

/-- MCP keyword list of `ParseError`. -/
def mcpKeywords : List String :=
  ["mcp", "model context protocol", "mcp server", "mcp tool",
   "mcp config", "server error", "protocol error"]

/-- Network keyword list of `ParseError`. -/
def networkKeywords : List String :=
  ["network", "connection", "timeout", "dns", "unreachable",
   "connection refused", "connection reset", "socket", "no internet"]

/-- Timeout keyword list of `ParseError`. -/
def timeoutKeywords : List String :=
  ["timeout", "timed out", "deadline exceeded", "context deadline"]

/-- Session keyword list of `ParseError`. -/
def sessionKeywords : List String :=
  ["session", "session not found", "invalid session", "session expired",
   "resume", "conversation not found"]

/-- Validation keyword list of `ParseError`. -/
def validationKeywords : List String :=
  ["invalid", "validation", "malformed", "bad request", "400",
   "invalid argument", "invalid option", "invalid flag"]

/-- `ParseError` from `errors.go`: classify trimmed stderr text and exit
code into a `ClaudeError`, testing the keyword groups in source order
(authentication, rate limit, permission, MCP, network, timeout, session,
validation, generic command fallback). -/
def ParseError (stderrIn : String) (exitCode : Int) : ClaudeError :=
  let st := goTrimSpace stderrIn
  let lower := goToLower st
  if containsAny lower authKeywords then
    { type := .authentication
      message := "Authentication failed - check ANTHROPIC_API_KEY environment variable"
      code := exitCode
      details :=
        { suggestion := some "Verify your API key is valid and has necessary permissions"
          stderrText := some st } }
  else if containsAny lower rateLimitKeywords then
    let ra := extractRetryAfter st
    { type := .rateLimit
      message := "Rate limit exceeded - please wait before retrying"
      code := exitCode
      details :=
        { suggestion := some "Wait before retrying or reduce request frequency"
          stderrText := some st
          retryAfter := if ra > 0 then some ra else none } }
  else if containsAny lower permissionKeywords then
    { type := .permission
      message := "Tool usage not permitted - check allowed/disallowed tools configuration"
      code := exitCode
      details :=
        { suggestion := some "Update --allowedTools or permissions settings"
          stderrText := some st } }
  else if containsAny lower mcpKeywords then
    let sug :=
      if containsAny lower ["connection", "connect", "unreachable", "timeout", "refused"] then
        "MCP server connection failed - ensure server is running and accessible"
      else if containsAny lower ["config", "configuration", "invalid", "not found", "parse"] then
        "MCP configuration error - check your MCP config file"
      else
        "Check MCP server configuration and ensure servers are running"
    { type := .mcp
      message := "MCP server error"
      code := exitCode
      details := { suggestion := some sug, stderrText := some st } }
  else if containsAny lower networkKeywords then
    { type := .network
      message := "Network connectivity issue"
      code := exitCode
      details :=
        { suggestion := some "Check internet connection and try again"
          stderrText := some st } }
  else if containsAny lower timeoutKeywords then
    { type := .timeout
      message := "Operation timed out"
      code := exitCode
      details :=
        { suggestion := some "Increase timeout or try a simpler operation"
          stderrText := some st } }
  else if containsAny lower sessionKeywords then
    { type := .session
      message := "Session management error"
      code := exitCode
      details :=
        { suggestion := some "Check session ID or start a new conversation"
          stderrText := some st } }
  else if containsAny lower validationKeywords then
    { type := .validation
      message := "Input validation failed"
      code := exitCode
      details :=
        { suggestion := some "Check command arguments and options"
          stderrText := some st } }
  else
    let l0 := goTrimSpace (firstLine st)
    let message := if st ≠ "" ∧ l0 ≠ "" then l0 else "Command execution failed"
    { type := .command
      message := message
      code := exitCode
      details := { stderrText := some st } }

/-- Any `ClaudeError` whose message is the fixed `ParseError` MCP message
is retryable: the sub-classification sees neither connection nor
configuration keywords in "MCP server error" and takes the optimistic
default. -/
theorem mcpFixedMessageRetryable (c : Int) (d : ErrDetails) :
    (ClaudeError.mk ErrorType.mcp "MCP server error" c d).IsRetryable = true := rfl

/-- Every MCP-classified output of `ParseError` carries the fixed message
"MCP server error", hence is retryable. -/
theorem parseErrorMcpRetryable (s : String) (ec : Int) :
    (ParseError s ec).type ≠ ErrorType.mcp ∨ (ParseError s ec).IsRetryable = true := by
  simp only [ParseError]
  repeat' split
  all_goals first
    | (right; exact mcpFixedMessageRetryable ec _)
    | (left; simp)

/-- C1 counterexample: the claim asserts that
`classify("Invalid MCP configuration file", 1)` has `retryable() == false`;
on the code it is classified as MCP but `IsRetryable` returns `true`,
because the connection/configuration sub-classification inspects the
error's `Message` field, which `ParseError` always sets to the fixed text
"MCP server error" for MCP errors. -/
theorem c1_counterexample :
    (ParseError "Invalid MCP configuration file" 1).type = ErrorType.mcp ∧
    (ParseError "Invalid MCP configuration file" 1).IsRetryable = true := by
  decide

/-- C1 (amended): `classify("Error: Invalid API key provided", 401)` is
authentication; `classify("connection refused to MCP server", 1)` is MCP
and retryable; `classify("Invalid MCP configuration file", 1)` is MCP and
also retryable. The connection-vs-configuration keyword sub-classification
is applied to the error's stored message (not to the raw diagnostic
text); since `ParseError` stores the fixed message "MCP server error" for
every MCP error, every classifier-produced MCP error falls through to the
optimistic retryable default. -/
theorem c1_theorem :
    (ParseError "Error: Invalid API key provided" 401).type = ErrorType.authentication ∧
    (ParseError "connection refused to MCP server" 1).type = ErrorType.mcp ∧
    (ParseError "connection refused to MCP server" 1).IsRetryable = true ∧
    (ParseError "Invalid MCP configuration file" 1).type = ErrorType.mcp ∧
    (ParseError "Invalid MCP configuration file" 1).IsRetryable = true ∧
    (∀ e : ClaudeError, e.type = ErrorType.mcp →
      e.IsRetryable = e.isMCPConnectionError) ∧
    (∀ (s : String) (ec : Int), (ParseError s ec).type = ErrorType.mcp →
      (ParseError s ec).IsRetryable = true) := by
  refine ⟨by decide, by decide, by decide, by decide, by decide, ?_, ?_⟩
  · intro e h
    simp [ClaudeError.IsRetryable, h, ErrorType.IsRetryable]
  · intro s ec h
    exact (parseErrorMcpRetryable s ec).resolve_left fun hne => hne h

/-- C1 witness: the quantified conjuncts of `c1_theorem` applied at
concrete inputs. -/
theorem c1_witness :
    (ClaudeError.mk ErrorType.mcp "Invalid MCP configuration file" 1 {}).IsRetryable
      = (ClaudeError.mk ErrorType.mcp "Invalid MCP configuration file" 1 {}).isMCPConnectionError ∧
    (ParseError "mcp server exploded" 2).IsRetryable = true := by
  refine ⟨c1_theorem.2.2.2.2.2.1 _ rfl, c1_theorem.2.2.2.2.2.2 "mcp server exploded" 2 (by decide)⟩

/-- C7 counterexample: the generic-command-failure fallback branch of
`ParseError` stores no "suggestion" key in the details map, refuting the
claim that every classified error carries one. -/
theorem c7_counterexample :
    (ParseError "boom" 1).type = ErrorType.command ∧
    (ParseError "boom" 1).details.suggestion = none := by
  decide

/-- C7 (amended): every error produced by `ParseError` carries the exit
code, a non-empty human-readable message and the raw diagnostic text in
its details; every branch except the generic-command-failure fallback
additionally carries a "suggestion" string. -/
theorem c7_theorem (s : String) (ec : Int) :
    (ParseError s ec).code = ec ∧
    (ParseError s ec).message ≠ "" ∧
    (ParseError s ec).details.stderrText = some (goTrimSpace s) ∧
    ((ParseError s ec).type ≠ ErrorType.command →
      (ParseError s ec).details.suggestion.isSome = true) := by
  simp only [ParseError]
  repeat' split
  all_goals refine ⟨rfl, ?_, rfl, ?_⟩
  all_goals
    first
      | (rename_i hguard; exact hguard.2)
      | simp

/-- C7 witness: `c7_theorem` at a concrete input, with the suggestion
implication discharged. -/
theorem c7_witness :
    (ParseError "Error: Invalid API key provided" 401).code = 401 ∧
    (ParseError "Error: Invalid API key provided" 401).details.suggestion.isSome = true := by
  have h := c7_theorem "Error: Invalid API key provided" 401
  exact ⟨h.1, h.2.2.2 (by decide)⟩

/-- `RetryPolicy` from the client code. Durations are exact rationals in
nanoseconds (`float64` arithmetic is exact on every constant these claims
mention). -/
structure RetryPolicy where
  maxRetries : Nat
  baseDelay : ℚ
  maxDelay : ℚ
  backoffFactor : ℚ
deriving DecidableEq

/-- `DefaultRetryPolicy`: 3 retries, 100ms base, 5s cap, factor 2.0. -/
def DefaultRetryPolicy : RetryPolicy :=
  { maxRetries := 3
    baseDelay := 10 ^ 8
    maxDelay := 5 * 10 ^ 9
    backoffFactor := 2 }

/-- `RetryPolicy.calculateBackoff`: 0 for attempt 0, otherwise
`BaseDelay * BackoffFactor^(attempt-1)` capped at `MaxDelay`. -/
def RetryPolicy.calculateBackoff (rp : RetryPolicy) (attempt : Nat) : ℚ :=
  if attempt = 0 then 0
  else
    let delay := rp.baseDelay * rp.backoffFactor ^ (attempt - 1)
    if rp.maxDelay < delay then rp.maxDelay else delay

/-- C8: the computed inter-attempt delay is
`min(baseDelay * multiplier^(attempt-1), maxDelay)` for every attempt ≥ 1
and 0 for attempt 0; for the default policy (100ms base, factor 2,
5s cap) the delays at attempts 1, 2, 3 and 10 are 100ms, 200ms, 400ms and
the 5s cap, in nanoseconds. -/
theorem c8_theorem :
    (∀ (rp : RetryPolicy) (attempt : Nat), 1 ≤ attempt →
      rp.calculateBackoff attempt =
        min (rp.baseDelay * rp.backoffFactor ^ (attempt - 1)) rp.maxDelay) ∧
    (∀ rp : RetryPolicy, rp.calculateBackoff 0 = 0) ∧
    DefaultRetryPolicy.calculateBackoff 1 = 10 ^ 8 ∧
    DefaultRetryPolicy.calculateBackoff 2 = 2 * 10 ^ 8 ∧
    DefaultRetryPolicy.calculateBackoff 3 = 4 * 10 ^ 8 ∧
    DefaultRetryPolicy.calculateBackoff 10 = 5 * 10 ^ 9 := by
  refine ⟨?_, ?_, ?_, ?_, ?_, ?_⟩
  · intro rp attempt h
    have hne : attempt ≠ 0 := by omega
    rcases le_or_lt (rp.baseDelay * rp.backoffFactor ^ (attempt - 1)) rp.maxDelay with hle | hlt
    · simp [RetryPolicy.calculateBackoff, hne, not_lt.mpr hle, min_eq_left hle]
    · simp [RetryPolicy.calculateBackoff, hne, hlt, min_eq_right hlt.le]
  · intro rp
    simp [RetryPolicy.calculateBackoff]
  · norm_num [RetryPolicy.calculateBackoff, DefaultRetryPolicy]
  · norm_num [RetryPolicy.calculateBackoff, DefaultRetryPolicy]
  · norm_num [RetryPolicy.calculateBackoff, DefaultRetryPolicy]
  · norm_num [RetryPolicy.calculateBackoff, DefaultRetryPolicy]

/-- C8 witness: the quantified part of `c8_theorem` applied at the default
policy and attempt 2. -/
theorem c8_witness :
    DefaultRetryPolicy.calculateBackoff 2 =
      min (DefaultRetryPolicy.baseDelay * DefaultRetryPolicy.backoffFactor ^ (2 - 1))
        DefaultRetryPolicy.maxDelay :=
  c8_theorem.1 DefaultRetryPolicy 2 (by norm_num)

/-- Result of one attempt of the operation driven by
`RunPromptWithRetryCtx`: success, failure with a `ClaudeError`, or
failure with a non-`ClaudeError` error (which the source never retries). -/
inductive AttemptResult where
  | success
  | claudeFail (e : ClaudeError)
  | otherFail
deriving DecidableEq

/-- Observable events of the retry loop: running attempt `n`, or sleeping
for `ns` nanoseconds (`time.After`). -/
inductive RunEvent where
  | attemptEv (n : Nat)
  | sleepEv (ns : ℚ)
deriving DecidableEq

/-- Terminal outcome of the retry loop. -/
inductive RunOutcome where
  | success
  | failure
  | exhausted
deriving DecidableEq

/-- The loop body of `ClaudeClient.RunPromptWithRetryCtx`, with the
context never cancelled and the per-attempt operation abstracted as
`op : Nat → AttemptResult`. `fuel` is the number of loop iterations left
(`maxRetries + 1 - attempt`); reaching 0 is the loop exit, which the
source turns into the "max retries exceeded" error. Events are recorded
in order: the backoff sleep before each attempt > 0, the attempt itself,
and — after a retryable rate-limit failure with a positive `RetryDelay` —
the additional retry-after sleep. -/
def runRetryGo (rp : RetryPolicy) (op : Nat → AttemptResult) :
    Nat → Nat → List RunEvent × RunOutcome
  | _, 0 => ([], .exhausted)
  | attempt, fuel + 1 =>
    let pre : List RunEvent :=
      if attempt = 0 then [.attemptEv 0]
      else [.sleepEv (rp.calculateBackoff attempt), .attemptEv attempt]
    match op attempt with
    | .success => (pre, .success)
    | .otherFail => (pre, .failure)
    | .claudeFail e =>
      if e.IsRetryable = false then (pre, .failure)
      else
        let hint : List RunEvent :=
          if e.type = ErrorType.rateLimit ∧ 0 < e.RetryDelay then
            [.sleepEv ((e.RetryDelay : ℚ) * 10 ^ 9)]
          else []
        let next := runRetryGo rp op (attempt + 1) fuel
        (pre ++ hint ++ next.1, next.2)

/-- `RunPromptWithRetryCtx` (uncancelled): run from attempt 0 with
`maxRetries + 1` loop iterations. -/
def runRetry (rp : RetryPolicy) (op : Nat → AttemptResult) :
    List RunEvent × RunOutcome :=
  runRetryGo rp op 0 (rp.maxRetries + 1)

/-- A classified rate-limit error carrying an explicit 60-second
retry-after hint, as produced by the classifier itself. -/
def rateLimit60 : ClaudeError :=
  ParseError "Rate limit exceeded, retry after 60 seconds" 429

/-- Operation that fails once with `rateLimit60`, then succeeds. -/
def opRateLimitOnce : Nat → AttemptResult
  | 0 => .claudeFail rateLimit60
  | _ + 1 => .success

/-- Rate-limit classified errors are always retryable. -/
theorem rateLimitRetryable (e : ClaudeError) (he : e.type = ErrorType.rateLimit) :
    e.IsRetryable = true := by
  simp [ClaudeError.IsRetryable, he, ErrorType.IsRetryable]

/-- Trace of the retry loop when attempt 0 fails with a rate-limit error
carrying a positive retry-after hint and attempt 1 succeeds: the loop
sleeps the hint AND then the regular backoff for attempt 1. -/
theorem retryOnceRateLimitTrace (rp : RetryPolicy) (e : ClaudeError)
    (op : Nat → AttemptResult)
    (he : e.type = ErrorType.rateLimit) (hd : 0 < e.RetryDelay)
    (hop0 : op 0 = .claudeFail e) (hop1 : op 1 = .success)
    (hfuel : 1 ≤ rp.maxRetries) :
    runRetry rp op =
      ([.attemptEv 0, .sleepEv ((e.RetryDelay : ℚ) * 10 ^ 9),
        .sleepEv (rp.calculateBackoff 1), .attemptEv 1], .success) := by
  obtain ⟨k, hk⟩ : ∃ k, rp.maxRetries = k + 1 := ⟨rp.maxRetries - 1, by omega⟩
  have hret := rateLimitRetryable e he
  unfold runRetry
  rw [hk]
  simp [runRetryGo, hop0, hop1, hret, he, hd]

/-- C2 counterexample: with the default policy and an operation whose
first attempt fails with a rate-limit error hinting retry-after 60s, the
executor sleeps 60s AND then the 100ms backoff before attempt 1 — two
sleep events, not the single hint sleep the claim describes. -/
theorem c2_counterexample :
    runRetry DefaultRetryPolicy opRateLimitOnce =
      ([.attemptEv 0, .sleepEv (60 * 10 ^ 9), .sleepEv (10 ^ 8), .attemptEv 1],
        .success) ∧
    ([RunEvent.attemptEv 0, .sleepEv (60 * 10 ^ 9), .sleepEv (10 ^ 8), .attemptEv 1],
        RunOutcome.success) ≠
      ([RunEvent.attemptEv 0, .sleepEv (60 * 10 ^ 9), .attemptEv 1], RunOutcome.success) := by
  have h := retryOnceRateLimitTrace DefaultRetryPolicy rateLimit60 opRateLimitOnce
    (by decide) (by decide) rfl rfl (by norm_num [DefaultRetryPolicy])
  have hd : rateLimit60.RetryDelay = 60 := by decide
  have hb : DefaultRetryPolicy.calculateBackoff 1 = 10 ^ 8 := by
    norm_num [RetryPolicy.calculateBackoff, DefaultRetryPolicy]
  rw [hd, hb] at h
  refine ⟨by exact_mod_cast h, by simp⟩

/-- C2 (amended): when an attempt fails with a rate-limit classified
error carrying an explicit retry-after hint of s > 0 seconds (and the
next attempt exists), the executor sleeps the hint and then ALSO the
computed exponential backoff before the next attempt — the hint is added
in front of the backoff delay for that inter-attempt gap, it does not
replace it. -/
theorem c2_theorem (rp : RetryPolicy) (e : ClaudeError)
    (op : Nat → AttemptResult)
    (he : e.type = ErrorType.rateLimit) (hd : 0 < e.RetryDelay)
    (hop0 : op 0 = .claudeFail e) (hop1 : op 1 = .success)
    (hfuel : 1 ≤ rp.maxRetries) :
    runRetry rp op =
      ([.attemptEv 0, .sleepEv ((e.RetryDelay : ℚ) * 10 ^ 9),
        .sleepEv (rp.calculateBackoff 1), .attemptEv 1], .success) :=
  retryOnceRateLimitTrace rp e op he hd hop0 hop1 hfuel

/-- C2 witness: `c2_theorem` at the default policy and the concrete
rate-limit error with a 60-second hint. -/
theorem c2_witness :
    runRetry DefaultRetryPolicy opRateLimitOnce =
      ([.attemptEv 0, .sleepEv ((rateLimit60.RetryDelay : ℚ) * 10 ^ 9),
        .sleepEv (DefaultRetryPolicy.calculateBackoff 1), .attemptEv 1],
        .success) :=
  c2_theorem DefaultRetryPolicy rateLimit60 opRateLimitOnce (by decide) (by decide)
    rfl rfl (by norm_num [DefaultRetryPolicy])

/-- `LimitedBuffer` from `buffer.go`. `data` models the bytes held by the
underlying `bytes.Buffer`; `written` and `truncated` mirror the Go
fields. The mutex only guards concurrent access and has no sequential
semantics. -/
structure LimitedBuffer where
  maxSize : Nat
  truncSuf : List Char
  data : List Char
  written : Nat
  truncated : Bool
deriving DecidableEq

/-- `NewLimitedBuffer`. -/
def NewLimitedBuffer (maxSize : Nat) (truncationSuffix : List Char) : LimitedBuffer :=
  { maxSize := maxSize
    truncSuf := truncationSuffix
    data := []
    written := 0
    truncated := false }

/-- State transition of `LimitedBuffer.Write`: discard (marking
truncation) when already full, truncate the write to the remaining space
when it straddles the limit, append in full otherwise. -/
def LimitedBuffer.Write (lb : LimitedBuffer) (p : List Char) : LimitedBuffer :=
  if lb.maxSize ≤ lb.written then { lb with truncated := true }
  else
    let remainingSpace := lb.maxSize - lb.written
    let q := if remainingSpace < p.length then p.take remainingSpace else p
    let t := if remainingSpace < p.length then true else lb.truncated
    { lb with data := lb.data ++ q, written := lb.written + q.length, truncated := t }

/-- Return value of `LimitedBuffer.Write`: the source always reports the
original length and the error returned by `bytes.Buffer.Write`, which is
always nil. -/
def LimitedBuffer.WriteRet (lb : LimitedBuffer) (p : List Char) :
    Nat × Option String × LimitedBuffer :=
  (p.length, none, lb.Write p)

/-- `LimitedBuffer.Bytes`: the held bytes, with the truncation suffix
appended iff truncated and the suffix is non-empty. -/
def LimitedBuffer.Bytes (lb : LimitedBuffer) : List Char :=
  if lb.truncated ∧ lb.truncSuf ≠ [] then lb.data ++ lb.truncSuf else lb.data

/-- `LimitedBuffer.Truncated`. -/
def LimitedBuffer.Truncated (lb : LimitedBuffer) : Bool :=
  lb.truncated

/-- `LimitedBuffer.Reset`. -/
def LimitedBuffer.Reset (lb : LimitedBuffer) : LimitedBuffer :=
  { lb with data := [], written := 0, truncated := false }

/-- A write that fits strictly within the remaining space (and is allowed
to be empty only when the buffer is not yet full) appends exactly its
bytes and preserves the truncation flag. -/
theorem LimitedBuffer.write_fits (lb : LimitedBuffer) (p : List Char)
    (hroom : lb.written + p.length ≤ lb.maxSize)
    (hopen : lb.written < lb.maxSize) :
    lb.Write p =
      { lb with data := lb.data ++ p, written := lb.written + p.length } := by
  have h1 : ¬ lb.maxSize ≤ lb.written := by omega
  have h2 : ¬ (lb.maxSize - lb.written < p.length) := by omega
  simp [LimitedBuffer.Write, h1, h2]

/-- Writing the full contents of a nonempty-write sequence that fits in
capacity, starting from a clean state, appends the concatenation and
never truncates. -/
theorem LimitedBuffer.writeAll_fits (ws : List (List Char)) :
    ∀ lb : LimitedBuffer, lb.truncated = false →
      (∀ w ∈ ws, w ≠ []) →
      lb.written = lb.data.length →
      lb.written + ws.flatten.length ≤ lb.maxSize →
      ws.foldl LimitedBuffer.Write lb =
        { lb with data := lb.data ++ ws.flatten,
                  written := lb.written + ws.flatten.length } := by
  induction ws with
  | nil => intro lb h1 h2 h3 h4; simp
  | cons w ws ih =>
    intro lb h1 h2 h3 h4
    simp only [List.flatten_cons, List.length_append] at h4 ⊢
    have hw : w ≠ [] := h2 w (by simp)
    have hwlen : 0 < w.length := List.length_pos.mpr hw
    have hopen : lb.written < lb.maxSize := by omega
    have hroom : lb.written + w.length ≤ lb.maxSize := by omega
    have hstep := lb.write_fits w hroom hopen
    simp only [List.foldl_cons, hstep]
    have hrec := ih { lb with data := lb.data ++ w, written := lb.written + w.length }
      (by simpa using h1)
      (fun x hx => h2 x (List.mem_cons_of_mem _ hx))
      (by simp [h3])
      (by show lb.written + w.length + ws.flatten.length ≤ lb.maxSize; omega)
    rw [hrec]
    simp [List.append_assoc, Nat.add_assoc]

/-- C9 counterexample: the claim quantifies over ALL write sequences with
total size ≤ capacity, but a zero-length write arriving when the buffer
is exactly full trips the `written >= maxSize` discard branch, which sets
`truncated` and makes the snapshot carry the marker: writes `["a", ""]`
to a capacity-1 buffer total 1 ≤ 1 yet end truncated with snapshot
"aT" ≠ "a". -/
theorem c9_counterexample :
    [['a'], ([] : List Char)].flatten.length ≤ 1 ∧
    ([['a'], ([] : List Char)].foldl LimitedBuffer.Write
      (NewLimitedBuffer 1 ['T'])).Truncated = true ∧
    ([['a'], ([] : List Char)].foldl LimitedBuffer.Write
      (NewLimitedBuffer 1 ['T'])).Bytes = ['a', 'T'] ∧
    ['a', 'T'] ≠ ['a'] := by
  decide

/-- C9 (amended): for every sequence of NON-EMPTY writes whose total byte
count is ≤ the buffer's capacity, the snapshot equals the exact
concatenation of the written byte slices and `truncated()` is false. -/
theorem c9_theorem (cap : Nat) (suf : List Char) (ws : List (List Char))
    (hne : ∀ w ∈ ws, w ≠ []) (hcap : ws.flatten.length ≤ cap) :
    (ws.foldl LimitedBuffer.Write (NewLimitedBuffer cap suf)).Bytes = ws.flatten ∧
    (ws.foldl LimitedBuffer.Write (NewLimitedBuffer cap suf)).Truncated = false := by
  have h := LimitedBuffer.writeAll_fits ws (NewLimitedBuffer cap suf) rfl hne rfl
    (by simpa [NewLimitedBuffer] using hcap)
  rw [h]
  simp [LimitedBuffer.Bytes, LimitedBuffer.Truncated, NewLimitedBuffer]

/-- C9 witness: `c9_theorem` at a concrete two-write sequence. -/
theorem c9_witness :
    ([['a'], ['b', 'c']].foldl LimitedBuffer.Write
      (NewLimitedBuffer 3 ['T'])).Bytes = [['a'], ['b', 'c']].flatten ∧
    ([['a'], ['b', 'c']].foldl LimitedBuffer.Write
      (NewLimitedBuffer 3 ['T'])).Truncated = false :=
  c9_theorem 3 ['T'] [['a'], ['b', 'c']] (by decide) (by decide)

/-- C5: `Write` never returns an error (and reports the original length);
a write straddling the remaining capacity stores exactly the bytes that
fit and marks truncation; filling the buffer with exactly `capacity`
bytes (over any sequence of non-empty writes) leaves `truncated()` false;
one further 1-byte write flips `truncated()` and makes the snapshot end
with the truncation marker. -/
theorem c5_theorem :
    (∀ (lb : LimitedBuffer) (p : List Char),
      (lb.WriteRet p).1 = p.length ∧ (lb.WriteRet p).2.1 = none) ∧
    (∀ (lb : LimitedBuffer) (p : List Char),
      lb.written < lb.maxSize → lb.maxSize - lb.written < p.length →
        (lb.Write p).data = lb.data ++ p.take (lb.maxSize - lb.written) ∧
        (lb.Write p).truncated = true) ∧
    (∀ (cap : Nat) (suf : List Char) (ws : List (List Char)),
      (∀ w ∈ ws, w ≠ []) → ws.flatten.length = cap →
        (ws.foldl LimitedBuffer.Write (NewLimitedBuffer cap suf)).Truncated = false) ∧
    (∀ (cap : Nat) (suf : List Char) (ws : List (List Char)) (q : List Char),
      (∀ w ∈ ws, w ≠ []) → ws.flatten.length = cap → q.length = 1 →
        ((ws.foldl LimitedBuffer.Write (NewLimitedBuffer cap suf)).Write q).Truncated = true ∧
        suf <:+ ((ws.foldl LimitedBuffer.Write (NewLimitedBuffer cap suf)).Write q).Bytes) := by
  refine ⟨fun lb p => ⟨rfl, rfl⟩, ?_, ?_, ?_⟩
  · intro lb p h1 h2
    have h3 : ¬ lb.maxSize ≤ lb.written := by omega
    simp [LimitedBuffer.Write, h3, h2]
  · intro cap suf ws hne hcap
    have h := LimitedBuffer.writeAll_fits ws (NewLimitedBuffer cap suf) rfl hne rfl
      (by simp [NewLimitedBuffer, hcap])
    rw [h]
    simp [LimitedBuffer.Truncated, NewLimitedBuffer]
  · intro cap suf ws q hne hcap hq
    have h := LimitedBuffer.writeAll_fits ws (NewLimitedBuffer cap suf) rfl hne rfl
      (by simp [NewLimitedBuffer, hcap])
    rw [h]
    have hfull :
        ({ NewLimitedBuffer cap suf with
            data := (NewLimitedBuffer cap suf).data ++ ws.flatten,
            written := (NewLimitedBuffer cap suf).written + ws.flatten.length } :
          LimitedBuffer).Write q =
        { NewLimitedBuffer cap suf with
            data := (NewLimitedBuffer cap suf).data ++ ws.flatten,
            written := (NewLimitedBuffer cap suf).written + ws.flatten.length,
            truncated := true } := by
      simp [LimitedBuffer.Write, NewLimitedBuffer, hcap]
    rw [hfull]
    refine ⟨rfl, ?_⟩
    by_cases hsuf : suf = []
    · simp [LimitedBuffer.Bytes, hsuf]
    · simp [LimitedBuffer.Bytes, NewLimitedBuffer, hsuf]

/-- C5 witness: the straddling-write and truncation-boundary conjuncts of
`c5_theorem` at concrete inputs. -/
theorem c5_witness :
    (((([['a']] : List (List Char)).foldl LimitedBuffer.Write
        (NewLimitedBuffer 1 ['T'])).Write ['b']).Truncated = true ∧
      ['T'] <:+ (((([['a']] : List (List Char))).foldl LimitedBuffer.Write
        (NewLimitedBuffer 1 ['T'])).Write ['b']).Bytes) :=
  c5_theorem.2.2.2 1 ['T'] [['a']] ['b'] (by decide) (by decide) (by decide)

/-- `RecoveryConfig` from `recovery.go`, restricted to the fields that
affect `ResilientBuffer.Write` semantics (`RetryDelay` only spaces out
`ResilientCopy` retries and `CrashOnPanic` only disables the panic
recover, neither of which changes the sequential write behaviour). -/
structure RecoveryConfig where
  maxRetries : Nat
  fallbackBufferSize : Nat
  enableGracefulDegradation : Bool
deriving DecidableEq

/-- `ResilientBuffer` from `recovery.go`. The `Metrics` recorder is not
modelled (it only counts events). `lastError` holds the last primary
write fault. -/
structure ResilientBuffer where
  primaryBuffer : LimitedBuffer
  fallbackBuffer : LimitedBuffer
  config : RecoveryConfig
  retryCount : Nat
  usingFallback : Bool
  lastError : Option String
deriving DecidableEq

/-- `NewResilientBuffer`: fresh primary of the requested size, fresh
fallback of the configured fallback size with " [FALLBACK]" appended to
its truncation suffix. -/
def NewResilientBuffer (maxSize : Nat) (truncationSuffix : List Char)
    (recoveryConfig : RecoveryConfig) : ResilientBuffer :=
  { primaryBuffer := NewLimitedBuffer maxSize truncationSuffix
    fallbackBuffer :=
      NewLimitedBuffer recoveryConfig.fallbackBufferSize
        (truncationSuffix ++ " [FALLBACK]".data)
    config := recoveryConfig
    retryCount := 0
    usingFallback := false
    lastError := none }

/-- `switchToFallback`: activate the fallback, first copying the primary's
current `Bytes()` into it when non-empty. -/
def ResilientBuffer.switchToFallback (rb : ResilientBuffer) : ResilientBuffer :=
  let rb1 := { rb with usingFallback := true }
  if rb1.primaryBuffer.Bytes ≠ [] then
    { rb1 with fallbackBuffer := rb1.fallbackBuffer.Write rb1.primaryBuffer.Bytes }
  else rb1

/-- `ResilientBuffer.Write` with the primary-write fault injected as an
explicit flag: `fault = true` models the `err != nil` branch of the
source (a `LimitedBuffer` write itself never fails, so the fault is the
internal fault the spec describes; a faulting write leaves the primary
unchanged). On a fault, `shouldUseFallback` increments `retryCount` only
when graceful degradation is enabled and switches once it reaches
`MaxRetries`; after the switch the same payload is written to the
fallback, and all later writes go to the fallback. -/
def ResilientBuffer.Write (rb : ResilientBuffer) (p : List Char) (fault : Bool) :
    ResilientBuffer :=
  if rb.usingFallback then
    { rb with fallbackBuffer := rb.fallbackBuffer.Write p }
  else if fault = false then
    { rb with primaryBuffer := rb.primaryBuffer.Write p }
  else
    let rb1 := { rb with lastError := some "primary write fault" }
    if rb1.config.enableGracefulDegradation then
      let rb2 := { rb1 with retryCount := rb1.retryCount + 1 }
      if rb2.config.maxRetries ≤ rb2.retryCount then
        let rb3 := rb2.switchToFallback
        { rb3 with fallbackBuffer := rb3.fallbackBuffer.Write p }
      else rb2
    else rb1

/-- `ResilientBuffer.Bytes`: snapshot of the active buffer. -/
def ResilientBuffer.Bytes (rb : ResilientBuffer) : List Char :=
  if rb.usingFallback then rb.fallbackBuffer.Bytes else rb.primaryBuffer.Bytes

/-- `ResilientBuffer.IsUsingFallback`. -/
def ResilientBuffer.IsUsingFallback (rb : ResilientBuffer) : Bool :=
  rb.usingFallback

/-- `ResilientBuffer.Reset`: both buffers cleared, fallback deactivated. -/
def ResilientBuffer.Reset (rb : ResilientBuffer) : ResilientBuffer :=
  { rb with
    primaryBuffer := rb.primaryBuffer.Reset
    fallbackBuffer := rb.fallbackBuffer.Reset
    usingFallback := false
    retryCount := 0
    lastError := none }

/-- Run a script of writes, each tagged with its primary-fault flag. -/
def runScript (rb : ResilientBuffer) (ops : List (List Char × Bool)) :
    ResilientBuffer :=
  ops.foldl (fun b op => b.Write op.1 op.2) rb

/-- A `LimitedBuffer` write only ever appends: the old data is a prefix
of the new data. -/
theorem LimitedBuffer.data_extend (lb : LimitedBuffer) (p : List Char) :
    lb.data <+: (lb.Write p).data := by
  unfold LimitedBuffer.Write
  split
  · exact List.prefix_refl _
  · exact List.prefix_append _ _

/-- Any prefix of the held data is a prefix of the snapshot. -/
theorem LimitedBuffer.prefix_of_Bytes (lb : LimitedBuffer) (l : List Char)
    (h : l <+: lb.data) : l <+: lb.Bytes := by
  unfold LimitedBuffer.Bytes
  split
  · exact h.trans (List.prefix_append _ _)
  · exact h

/-- Once the fallback is active, a write keeps it active and only appends
to the fallback buffer. -/
theorem ResilientBuffer.fallback_step (rb : ResilientBuffer) (p : List Char)
    (f : Bool) (h : rb.usingFallback = true) :
    (rb.Write p f).usingFallback = true ∧
    rb.fallbackBuffer.data <+: (rb.Write p f).fallbackBuffer.data := by
  simp [ResilientBuffer.Write, h, LimitedBuffer.data_extend]

/-- Once the fallback is active, a whole script keeps it active and only
appends to the fallback buffer. -/
theorem ResilientBuffer.fallback_run (ops : List (List Char × Bool)) :
    ∀ rb : ResilientBuffer, rb.usingFallback = true →
      (runScript rb ops).usingFallback = true ∧
      rb.fallbackBuffer.data <+: (runScript rb ops).fallbackBuffer.data := by
  induction ops with
  | nil => intro rb h; exact ⟨h, List.prefix_refl _⟩
  | cons op ops ih =>
    intro rb h
    have hstep := rb.fallback_step op.1 op.2 h
    have hrest := ih (rb.Write op.1 op.2) hstep.1
    exact ⟨hrest.1, hstep.2.trans hrest.2⟩

/-- While the fallback is inactive, a non-faulting write goes to the
primary buffer only. -/
theorem ResilientBuffer.success_step (rb : ResilientBuffer) (w : List Char)
    (h : rb.usingFallback = false) :
    rb.Write w false = { rb with primaryBuffer := rb.primaryBuffer.Write w } := by
  simp [ResilientBuffer.Write, h]

/-- A script of non-faulting writes, run while the fallback is inactive,
is the corresponding fold over the primary buffer. -/
theorem ResilientBuffer.success_run (ws : List (List Char)) :
    ∀ rb : ResilientBuffer, rb.usingFallback = false →
      runScript rb (ws.map fun w => (w, false)) =
        { rb with primaryBuffer := ws.foldl LimitedBuffer.Write rb.primaryBuffer } := by
  induction ws with
  | nil => intro rb h; rfl
  | cons w ws ih =>
    intro rb h
    simp only [List.map_cons, runScript, List.foldl_cons]
    have hstep := rb.success_step w h
    show runScript (rb.Write w false) (ws.map fun w => (w, false)) = _
    rw [hstep, ih _ (by simp [h])]

/-- A faulting write before the retry budget is exhausted only bumps the
retry count and records the fault. -/
theorem ResilientBuffer.fault_step_noswitch (rb : ResilientBuffer) (p : List Char)
    (h : rb.usingFallback = false)
    (hg : rb.config.enableGracefulDegradation = true)
    (hlt : rb.retryCount + 1 < rb.config.maxRetries) :
    rb.Write p true =
      { rb with retryCount := rb.retryCount + 1,
                lastError := some "primary write fault" } := by
  have hn : ¬ rb.config.maxRetries ≤ rb.retryCount + 1 := by omega
  simp [ResilientBuffer.Write, h, hg, hn]

/-- Repeated faulting writes below the retry budget accumulate the retry
count and leave both buffers and the fallback flag unchanged. -/
theorem ResilientBuffer.fault_run_noswitch (p : List Char) :
    ∀ (k : Nat) (rb : ResilientBuffer), rb.usingFallback = false →
      rb.config.enableGracefulDegradation = true →
      rb.retryCount + k < rb.config.maxRetries →
      runScript rb (List.replicate k (p, true)) =
        { rb with retryCount := rb.retryCount + k,
                  lastError :=
                    if k = 0 then rb.lastError else some "primary write fault" } := by
  intro k
  induction k with
  | zero => intro rb h hg hk; rfl
  | succ k ih =>
    intro rb h hg hk
    rw [List.replicate_succ]
    show runScript (rb.Write p true) (List.replicate k (p, true)) = _
    rw [rb.fault_step_noswitch p h hg (by omega)]
    rw [ih _ (by simp [h]) (by simp [hg]) (by simp; omega)]
    have harith : rb.retryCount + 1 + k = rb.retryCount + (k + 1) := by omega
    simp [harith]

/-- The faulting write that exhausts the retry budget switches to the
fallback: the primary snapshot (when non-empty) is copied into the
fallback and then the faulting payload is written to it. -/
theorem ResilientBuffer.fault_step_switch (rb : ResilientBuffer) (p : List Char)
    (h : rb.usingFallback = false)
    (hg : rb.config.enableGracefulDegradation = true)
    (hge : rb.config.maxRetries ≤ rb.retryCount + 1) :
    rb.Write p true =
      { rb with retryCount := rb.retryCount + 1,
                lastError := some "primary write fault",
                usingFallback := true,
                fallbackBuffer :=
                  (if rb.primaryBuffer.Bytes ≠ [] then
                      rb.fallbackBuffer.Write rb.primaryBuffer.Bytes
                    else rb.fallbackBuffer).Write p } := by
  simp only [ResilientBuffer.Write, ResilientBuffer.switchToFallback, h, hg, hge]
  by_cases hb : rb.primaryBuffer.Bytes = [] <;> simp [hb]

/-- `runScript` distributes over script concatenation. -/
theorem runScript_append (rb : ResilientBuffer) (xs ys : List (List Char × Bool)) :
    runScript rb (xs ++ ys) = runScript (runScript rb xs) ys := by
  simp [runScript]

/-- The C3 scenario: a fresh resilient buffer (graceful degradation on)
takes the successful writes `ws`, then `maxR` consecutive primary faults
with payload `fp`. -/
def c3Scenario (primCap fbCap maxR : Nat) (suf fp : List Char)
    (ws : List (List Char)) : ResilientBuffer :=
  runScript
    (NewResilientBuffer primCap suf
      { maxRetries := maxR, fallbackBufferSize := fbCap,
        enableGracefulDegradation := true })
    ((ws.map fun w => (w, false)) ++ List.replicate maxR (fp, true))

/-- Explicit form of the C3 scenario state: primary holds the
concatenated writes, the final fault switched to the fallback, which
holds a copy of the primary content followed by the faulting payload. -/
theorem c3Scenario_eq (primCap fbCap m : Nat) (suf fp : List Char)
    (ws : List (List Char))
    (hne : ∀ w ∈ ws, w ≠ [])
    (hp : ws.flatten.length ≤ primCap) :
    c3Scenario primCap fbCap (m + 1) suf fp ws =
      { primaryBuffer :=
          { maxSize := primCap, truncSuf := suf, data := ws.flatten,
            written := ws.flatten.length, truncated := false }
        fallbackBuffer :=
          (if ws.flatten ≠ [] then
              (NewLimitedBuffer fbCap (suf ++ " [FALLBACK]".data)).Write ws.flatten
            else NewLimitedBuffer fbCap (suf ++ " [FALLBACK]".data)).Write fp
        config :=
          { maxRetries := m + 1, fallbackBufferSize := fbCap,
            enableGracefulDegradation := true }
        retryCount := m + 1
        usingFallback := true
        lastError := some "primary write fault" } := by
  have hP : ws.foldl LimitedBuffer.Write (NewLimitedBuffer primCap suf)
      = { maxSize := primCap, truncSuf := suf, data := ws.flatten,
          written := ws.flatten.length, truncated := false } := by
    rw [LimitedBuffer.writeAll_fits ws (NewLimitedBuffer primCap suf) rfl hne rfl
      (by simpa [NewLimitedBuffer] using hp)]
    simp [NewLimitedBuffer]
  have h1 : c3Scenario primCap fbCap (m + 1) suf fp ws
      = runScript
          (runScript
            (NewResilientBuffer primCap suf
              { maxRetries := m + 1, fallbackBufferSize := fbCap,
                enableGracefulDegradation := true })
            (ws.map fun w => (w, false)))
          (List.replicate (m + 1) (fp, true)) := by
    simp [c3Scenario, runScript]
  rw [h1, ResilientBuffer.success_run ws _ rfl]
  have hP' : List.foldl LimitedBuffer.Write
      (NewResilientBuffer primCap suf
        { maxRetries := m + 1, fallbackBufferSize := fbCap,
          enableGracefulDegradation := true }).primaryBuffer ws
      = { maxSize := primCap, truncSuf := suf, data := ws.flatten,
          written := ws.flatten.length, truncated := false } := hP
  rw [hP']
  rw [List.replicate_succ', runScript_append]
  rw [ResilientBuffer.fault_run_noswitch fp m _ rfl rfl
    (by show 0 + m < m + 1; omega)]
  rw [show ∀ rb : ResilientBuffer, runScript rb [(fp, true)] = rb.Write fp true
    from fun rb => rfl]
  rw [ResilientBuffer.fault_step_switch _ fp rfl rfl
    (by show m + 1 ≤ 0 + m + 1; omega)]
  simp [LimitedBuffer.Bytes, NewResilientBuffer, NewLimitedBuffer]

/-- When the fallback is active, a prefix of the fallback's data is a
prefix of the resilient snapshot. -/
theorem ResilientBuffer.fallbackPrefixBytes (rb : ResilientBuffer) (l : List Char)
    (h : rb.usingFallback = true) (hpre : l <+: rb.fallbackBuffer.data) :
    l <+: rb.Bytes := by
  simp only [ResilientBuffer.Bytes, h, if_pos]
  exact rb.fallbackBuffer.prefix_of_Bytes l hpre

/-- C3 (amended): after N successful non-empty primary writes totalling
at most both the primary and the fallback capacity, followed by
`maxRetries` consecutive primary-write faults (graceful degradation
enabled, `maxRetries ≥ 1`), the buffer is on the fallback, the snapshot
contains the concatenated successful writes as a prefix, the fallback
stays active across any further writes, and only an explicit `Reset`
clears it. Without the fallback-capacity bound the copied prefix may be
truncated away (see the counterexample). -/
theorem c3_theorem (primCap fbCap maxR : Nat) (suf fp : List Char)
    (ws : List (List Char)) (rest : List (List Char × Bool))
    (hmr : 1 ≤ maxR) (hne : ∀ w ∈ ws, w ≠ [])
    (hp : ws.flatten.length ≤ primCap) (hf : ws.flatten.length ≤ fbCap) :
    (c3Scenario primCap fbCap maxR suf fp ws).IsUsingFallback = true ∧
    ws.flatten <+: (c3Scenario primCap fbCap maxR suf fp ws).Bytes ∧
    (runScript (c3Scenario primCap fbCap maxR suf fp ws) rest).IsUsingFallback = true ∧
    ws.flatten <+: (runScript (c3Scenario primCap fbCap maxR suf fp ws) rest).Bytes ∧
    (c3Scenario primCap fbCap maxR suf fp ws).Reset.IsUsingFallback = false := by
  obtain ⟨m, rfl⟩ : ∃ m, maxR = m + 1 := ⟨maxR - 1, by omega⟩
  have heq := c3Scenario_eq primCap fbCap m suf fp ws hne hp
  have hpre : ws.flatten <+:
      ((if ws.flatten ≠ [] then
          (NewLimitedBuffer fbCap (suf ++ " [FALLBACK]".data)).Write ws.flatten
        else NewLimitedBuffer fbCap (suf ++ " [FALLBACK]".data)).Write fp).data := by
    by_cases hflat : ws.flatten = []
    · simp [hflat]
    · have hlen : 0 < ws.flatten.length := List.length_pos.mpr hflat
      have hfit := LimitedBuffer.write_fits
        (NewLimitedBuffer fbCap (suf ++ " [FALLBACK]".data)) ws.flatten
        (by show 0 + ws.flatten.length ≤ fbCap; omega)
        (by show 0 < fbCap; omega)
      have hext := LimitedBuffer.data_extend
        ((NewLimitedBuffer fbCap (suf ++ " [FALLBACK]".data)).Write ws.flatten) fp
      rw [hfit] at hext
      simp only [NewLimitedBuffer, List.nil_append] at hext
      simp only [hflat, ne_eq, not_false_iff, if_pos, if_true]
      rw [hfit]
      simpa [NewLimitedBuffer] using hext
  rw [heq]
  have hfall :
      (⟨{ maxSize := primCap, truncSuf := suf, data := ws.flatten,
          written := ws.flatten.length, truncated := false },
        (if ws.flatten ≠ [] then
            (NewLimitedBuffer fbCap (suf ++ " [FALLBACK]".data)).Write ws.flatten
          else NewLimitedBuffer fbCap (suf ++ " [FALLBACK]".data)).Write fp,
        { maxRetries := m + 1, fallbackBufferSize := fbCap,
          enableGracefulDegradation := true },
        m + 1, true, some "primary write fault"⟩ : ResilientBuffer).usingFallback
        = true := rfl
  have hrun := ResilientBuffer.fallback_run rest _ hfall
  refine ⟨rfl, ?_, hrun.1, ?_, rfl⟩
  · exact ResilientBuffer.fallbackPrefixBytes _ _ rfl hpre
  · exact ResilientBuffer.fallbackPrefixBytes _ _ hrun.1 (hpre.trans hrun.2)

/-- C3 counterexample: the claim, which has no capacity hypothesis, fails
when the fallback is smaller than the captured primary content: with
primary capacity 10, fallback capacity 1, maxRetries 1, one successful
5-byte write "abcde" followed by one fault switches to the fallback, but
the fallback only keeps "a" plus its truncation marker, so "abcde" is
not a prefix of the snapshot. -/
theorem c3_counterexample :
    (c3Scenario 10 1 1 ['T'] ['x'] [['a', 'b', 'c', 'd', 'e']]).IsUsingFallback = true ∧
    ¬ (['a', 'b', 'c', 'd', 'e'] <+:
        (c3Scenario 10 1 1 ['T'] ['x'] [['a', 'b', 'c', 'd', 'e']]).Bytes) := by
  decide

/-- C3 witness: `c3_theorem` at a concrete scenario that satisfies the
capacity hypotheses. -/
theorem c3_witness :
    (c3Scenario 10 5 1 ['T'] ['x'] [['a', 'b']]).IsUsingFallback = true ∧
    [['a', 'b']].flatten <+: (c3Scenario 10 5 1 ['T'] ['x'] [['a', 'b']]).Bytes ∧
    (runScript (c3Scenario 10 5 1 ['T'] ['x'] [['a', 'b']]) [(['z'], false)]).IsUsingFallback = true ∧
    [['a', 'b']].flatten <+:
      (runScript (c3Scenario 10 5 1 ['T'] ['x'] [['a', 'b']]) [(['z'], false)]).Bytes ∧
    (c3Scenario 10 5 1 ['T'] ['x'] [['a', 'b']]).Reset.IsUsingFallback = false :=
  c3_theorem 10 5 1 ['T'] ['x'] [['a', 'b']] [(['z'], false)]
    (by decide) (by decide) (by decide) (by decide)

/-- `CircuitState` from `recovery.go` (`StateClosed/StateOpen/StateHalfOpen`;
`opened` stands for `StateOpen`, which is a reserved word in Lean). -/
inductive CircuitState where
  | closed
  | opened
  | halfOpen
deriving DecidableEq

/-- `CircuitBreaker` from `recovery.go`. Wall-clock instants are natural
numbers (nanoseconds); `lastFailureTime` starts at 0 like Go's zero
`time.Time`. -/
structure CircuitBreaker where
  failureThreshold : Nat
  resetTimeout : Nat
  consecutiveFailures : Nat
  lastFailureTime : Nat
  state : CircuitState
deriving DecidableEq

/-- `NewCircuitBreaker`. -/
def NewCircuitBreaker (failureThreshold resetTimeout : Nat) : CircuitBreaker :=
  { failureThreshold := failureThreshold
    resetTimeout := resetTimeout
    consecutiveFailures := 0
    lastFailureTime := 0
    state := .closed }

/-- `canExecute` evaluated at wall-clock instant `now`: returns the
verdict together with the (possibly HalfOpen-promoted) state.
`time.Since(lastFailureTime) > resetTimeout` is the strict comparison of
the source. -/
def CircuitBreaker.canExecute (cb : CircuitBreaker) (now : Nat) :
    Bool × CircuitBreaker :=
  match cb.state with
  | .closed => (true, cb)
  | .opened =>
    if cb.resetTimeout < now - cb.lastFailureTime then
      (true, { cb with state := .halfOpen })
    else (false, cb)
  | .halfOpen => (true, cb)

/-- `recordResult`: a failure bumps the consecutive-failure count,
refreshes the failure timestamp and opens the circuit at the threshold; a
success resets the count and closes the circuit. -/
def CircuitBreaker.recordResult (cb : CircuitBreaker) (failed : Bool)
    (now : Nat) : CircuitBreaker :=
  if failed then
    let cf := cb.consecutiveFailures + 1
    { cb with
      consecutiveFailures := cf
      lastFailureTime := now
      state := if cb.failureThreshold ≤ cf then .opened else cb.state }
  else { cb with consecutiveFailures := 0, state := .closed }

/-- Result of `Execute`: either the circuit-open short-circuit (the
wrapped operation is NOT invoked) or the operation ran and its
failure/success outcome was recorded. -/
inductive ExecResult where
  | circuitOpen
  | ranOp (failed : Bool)
deriving DecidableEq

/-- `CircuitBreaker.Execute` at instant `now`, the wrapped operation
abstracted by whether it fails. -/
def CircuitBreaker.Execute (cb : CircuitBreaker) (opFails : Bool) (now : Nat) :
    ExecResult × CircuitBreaker :=
  let v := cb.canExecute now
  if v.1 then (.ranOp opFails, v.2.recordResult opFails now)
  else (.circuitOpen, v.2)

/-- Fold a list of (opFails, now) calls through `Execute`, keeping the
final breaker state. -/
def runBreaker (cb : CircuitBreaker) (calls : List (Bool × Nat)) :
    CircuitBreaker :=
  calls.foldl (fun c call => (c.Execute call.1 call.2).2) cb

/-- Breaker states reachable from `NewCircuitBreaker` through `Execute`
calls at arbitrary instants. -/
inductive CBReachable (ft rt : Nat) : CircuitBreaker → Prop where
  | init : CBReachable ft rt (NewCircuitBreaker ft rt)
  | step (cb : CircuitBreaker) (f : Bool) (now : Nat) :
      CBReachable ft rt cb → CBReachable ft rt (cb.Execute f now).2

/-- One `Execute` call preserves the invariant "a non-Closed breaker has
at least `failureThreshold` consecutive failures". -/
theorem cb_invariant_step (cb : CircuitBreaker) (f : Bool) (now : Nat)
    (h : cb.state ≠ CircuitState.closed →
      cb.failureThreshold ≤ cb.consecutiveFailures) :
    (cb.Execute f now).2.state ≠ CircuitState.closed →
      (cb.Execute f now).2.failureThreshold ≤ (cb.Execute f now).2.consecutiveFailures := by
  cases hstate : cb.state <;>
    simp [CircuitBreaker.Execute, CircuitBreaker.canExecute,
      CircuitBreaker.recordResult, hstate] <;>
    split_ifs <;>
    simp_all <;>
    omega

/-- Reachability invariant: an Open or HalfOpen breaker has at least
`failureThreshold` consecutive failures recorded. -/
theorem cb_invariant (ft rt : Nat) (cb : CircuitBreaker)
    (h : CBReachable ft rt cb) :
    cb.state ≠ CircuitState.closed →
      cb.failureThreshold ≤ cb.consecutiveFailures := by
  induction h with
  | init => intro hc; exact absurd rfl hc
  | step cb f now _ ih => exact cb_invariant_step cb f now ih

/-- A failing call on a Closed breaker bumps the failure count, stamps
the failure time, and opens the circuit exactly at the threshold. -/
theorem cb_closed_fail_step (cb : CircuitBreaker) (now : Nat)
    (h : cb.state = CircuitState.closed) :
    (cb.Execute true now).2 =
      { cb with
        consecutiveFailures := cb.consecutiveFailures + 1
        lastFailureTime := now
        state :=
          if cb.failureThreshold ≤ cb.consecutiveFailures + 1 then .opened
          else .closed } := by
  simp only [CircuitBreaker.Execute, CircuitBreaker.canExecute,
    CircuitBreaker.recordResult, h]
  split_ifs <;> simp_all

/-- Failing calls strictly below the threshold keep the breaker Closed
and accumulate the failure count. -/
theorem runBreaker_below (ts : List Nat) :
    ∀ cb : CircuitBreaker, cb.state = CircuitState.closed →
      cb.consecutiveFailures + ts.length < cb.failureThreshold →
      (runBreaker cb (ts.map fun t => (true, t))).state = CircuitState.closed ∧
      (runBreaker cb (ts.map fun t => (true, t))).consecutiveFailures
        = cb.consecutiveFailures + ts.length ∧
      (runBreaker cb (ts.map fun t => (true, t))).failureThreshold
        = cb.failureThreshold := by
  induction ts with
  | nil => intro cb h hk; exact ⟨h, by simp [runBreaker], rfl⟩
  | cons t ts ih =>
    intro cb h hk
    simp only [List.map_cons, List.length_cons] at hk ⊢
    have hstep : runBreaker cb ((true, t) :: ts.map fun t => (true, t))
        = runBreaker ((cb.Execute true t).2) (ts.map fun t => (true, t)) := rfl
    rw [hstep, cb_closed_fail_step cb t h]
    have hlt : ¬ cb.failureThreshold ≤ cb.consecutiveFailures + 1 := by omega
    simp only [hlt, if_false]
    have hrec := ih { cb with
        consecutiveFailures := cb.consecutiveFailures + 1
        lastFailureTime := t
        state := CircuitState.closed } rfl
      (by show cb.consecutiveFailures + 1 + ts.length < cb.failureThreshold; omega)
    refine ⟨hrec.1, ?_, ?_⟩
    · rw [hrec.2.1]
      show cb.consecutiveFailures + 1 + ts.length = cb.consecutiveFailures + (ts.length + 1)
      omega
    · rw [hrec.2.2]

/-- `runBreaker` distributes over call-list concatenation. -/
theorem runBreaker_append (cb : CircuitBreaker) (xs ys : List (Bool × Nat)) :
    runBreaker cb (xs ++ ys) = runBreaker (runBreaker cb xs) ys := by
  simp [runBreaker]

/-- C4 counterexample: the claim says the circuit re-probes once the
elapsed time is ≥ resetTimeout, but the source uses the strict comparison
`time.Since(lastFailureTime) > resetTimeout`: with threshold 1 and
resetTimeout 5, after a failure at instant 0 a call at instant 5
(elapsed = resetTimeout exactly) is still short-circuited with the
circuit-open error and the state stays Open. -/
theorem c4_counterexample :
    ((NewCircuitBreaker 1 5).Execute true 0).2.state = CircuitState.opened ∧
    ((NewCircuitBreaker 1 5).Execute true 0).2.lastFailureTime = 0 ∧
    5 - 0 ≥ ((NewCircuitBreaker 1 5).Execute true 0).2.resetTimeout ∧
    (((NewCircuitBreaker 1 5).Execute true 0).2.Execute false 5).1 = ExecResult.circuitOpen ∧
    (((NewCircuitBreaker 1 5).Execute true 0).2.Execute false 5).2.state = CircuitState.opened := by
  decide

/-- C4 (amended): from Closed, `failureThreshold` consecutive failing
calls open the circuit (stamping the last failure time); while Open with
elapsed time ≤ resetTimeout (note: the boundary instant included, since
the source compares strictly) Execute short-circuits with the
circuit-open result and does not run the operation; once elapsed time is
STRICTLY greater than resetTimeout the next Execute promotes the state to
HalfOpen and runs the operation; a success in that probe call closes the
circuit and resets consecutiveFailures to 0; a failure in it (from any
reachable breaker) re-opens the circuit and refreshes lastFailureTime. -/
theorem c4_theorem :
    (∀ (ft rt : Nat) (ts : List Nat) (t : Nat), 1 ≤ ft → ts.length = ft - 1 →
      (runBreaker (NewCircuitBreaker ft rt)
          ((ts.map fun x => (true, x)) ++ [(true, t)])).state = CircuitState.opened ∧
      (runBreaker (NewCircuitBreaker ft rt)
          ((ts.map fun x => (true, x)) ++ [(true, t)])).consecutiveFailures = ft ∧
      (runBreaker (NewCircuitBreaker ft rt)
          ((ts.map fun x => (true, x)) ++ [(true, t)])).lastFailureTime = t) ∧
    (∀ (cb : CircuitBreaker) (f : Bool) (now : Nat),
      cb.state = CircuitState.opened →
      now - cb.lastFailureTime ≤ cb.resetTimeout →
      cb.Execute f now = (ExecResult.circuitOpen, cb)) ∧
    (∀ (cb : CircuitBreaker) (f : Bool) (now : Nat),
      cb.state = CircuitState.opened →
      cb.resetTimeout < now - cb.lastFailureTime →
      cb.canExecute now = (true, { cb with state := CircuitState.halfOpen }) ∧
      (cb.Execute f now).1 = ExecResult.ranOp f) ∧
    (∀ (cb : CircuitBreaker) (now : Nat),
      cb.state = CircuitState.opened →
      cb.resetTimeout < now - cb.lastFailureTime →
      (cb.Execute false now).2 =
        { cb with consecutiveFailures := 0, state := CircuitState.closed }) ∧
    (∀ (ft rt : Nat) (cb : CircuitBreaker) (now : Nat),
      CBReachable ft rt cb →
      cb.state = CircuitState.opened →
      cb.resetTimeout < now - cb.lastFailureTime →
      (cb.Execute true now).2 =
        { cb with consecutiveFailures := cb.consecutiveFailures + 1,
                  lastFailureTime := now, state := CircuitState.opened }) := by
  refine ⟨?_, ?_, ?_, ?_, ?_⟩
  · intro ft rt ts t hft hlen
    rw [runBreaker_append]
    have hbelow := runBreaker_below ts (NewCircuitBreaker ft rt) rfl
      (by show 0 + ts.length < ft; omega)
    have hone : runBreaker (runBreaker (NewCircuitBreaker ft rt)
        (ts.map fun x => (true, x))) [(true, t)]
        = ((runBreaker (NewCircuitBreaker ft rt)
            (ts.map fun x => (true, x))).Execute true t).2 := rfl
    rw [hone, cb_closed_fail_step _ t hbelow.1]
    have hcf : (runBreaker (NewCircuitBreaker ft rt)
        (ts.map fun x => (true, x))).consecutiveFailures = ft - 1 := by
      rw [hbelow.2.1]; show 0 + ts.length = ft - 1; omega
    have hth : (runBreaker (NewCircuitBreaker ft rt)
        (ts.map fun x => (true, x))).failureThreshold = ft := hbelow.2.2
    rw [hcf, hth]
    have hcond : ft ≤ ft - 1 + 1 := by omega
    simp [hcond]
    omega
  · intro cb f now h hle
    have hn : ¬ cb.resetTimeout < now - cb.lastFailureTime := by omega
    simp [CircuitBreaker.Execute, CircuitBreaker.canExecute, h, hn]
  · intro cb f now h hlt
    constructor
    · simp [CircuitBreaker.canExecute, h, hlt]
    · simp [CircuitBreaker.Execute, CircuitBreaker.canExecute, h, hlt]
  · intro cb now h hlt
    simp [CircuitBreaker.Execute, CircuitBreaker.canExecute,
      CircuitBreaker.recordResult, h, hlt]
  · intro ft rt cb now hreach h hlt
    have hinv := cb_invariant ft rt cb hreach (by simp [h])
    have hcond : cb.failureThreshold ≤ cb.consecutiveFailures + 1 := by omega
    simp [CircuitBreaker.Execute, CircuitBreaker.canExecute,
      CircuitBreaker.recordResult, h, hlt, hcond]

/-- C4 witness: the conjuncts of `c4_theorem` exercised at a concrete
breaker (threshold 1, resetTimeout 5) with a failure at instant 0. -/
theorem c4_witness :
    (runBreaker (NewCircuitBreaker 1 5) [(true, (0 : Nat))]).state = CircuitState.opened ∧
    ((NewCircuitBreaker 1 5).Execute true 0).2.Execute false 3
      = (ExecResult.circuitOpen, ((NewCircuitBreaker 1 5).Execute true 0).2) ∧
    (((NewCircuitBreaker 1 5).Execute true 0).2.Execute false 6).2
      = { ((NewCircuitBreaker 1 5).Execute true 0).2 with
          consecutiveFailures := 0, state := CircuitState.closed } ∧
    (((NewCircuitBreaker 1 5).Execute true 0).2.Execute true 6).2
      = { ((NewCircuitBreaker 1 5).Execute true 0).2 with
          consecutiveFailures := ((NewCircuitBreaker 1 5).Execute true 0).2.consecutiveFailures + 1,
          lastFailureTime := 6, state := CircuitState.opened } := by
  refine ⟨?_, ?_, ?_, ?_⟩
  · have h := c4_theorem.1 1 5 [] 0 (by decide) (by decide)
    exact h.1
  · exact c4_theorem.2.1 _ false 3 (by decide) (by decide)
  · exact c4_theorem.2.2.2.1 _ 6 (by decide) (by decide)
  · exact c4_theorem.2.2.2.2 1 5 _ 6
      (CBReachable.step (NewCircuitBreaker 1 5) true 0 CBReachable.init)
      (by decide) (by decide)

/-- `SafeReader` from `buffer.go`: wraps a reader, stops after
`maxBytes`. -/
structure SafeReader where
  maxBytes : Nat
  read : Nat
deriving DecidableEq

/-- `NewSafeReader` (the wrapped reader is threaded separately as an
abstract stateful oracle). -/
def NewSafeReader (maxBytes : Nat) : SafeReader :=
  { maxBytes := maxBytes, read := 0 }

/-- `SafeReader.Read` for a request of `k` bytes. The underlying reader
is an abstract oracle `step : σ → Nat → Nat × σ` returning the byte count
it produced for a clamped request (contract: never more than requested).
Returns the byte count, whether the guard returned `io.EOF` without
touching the underlying reader, and the two updated states. -/
def SafeReader.Read {σ : Type} (step : σ → Nat → Nat × σ)
    (sr : SafeReader) (s : σ) (k : Nat) : Nat × Bool × SafeReader × σ :=
  if sr.maxBytes ≤ sr.read then (0, true, sr, s)
  else
    let remaining := sr.maxBytes - sr.read
    let k2 := if remaining < k then remaining else k
    let r := step s k2
    (r.1, false, { sr with read := sr.read + r.1 }, r.2)

/-- Run a sequence of read requests, totalling the returned byte counts. -/
def runReads {σ : Type} (step : σ → Nat → Nat × σ) :
    SafeReader → σ → List Nat → Nat × SafeReader × σ
  | sr, s, [] => (0, sr, s)
  | sr, s, k :: ks =>
    let r := SafeReader.Read step sr s k
    let rest := runReads step r.2.2.1 r.2.2.2 ks
    (r.1 + rest.1, rest.2)

/-- One `Read` keeps the cumulative count within `maxBytes` and adds
exactly its return value to it. -/
theorem SafeReader.read_step {σ : Type} (step : σ → Nat → Nat × σ)
    (hstep : ∀ (s : σ) (k : Nat), (step s k).1 ≤ k)
    (sr : SafeReader) (s : σ) (k : Nat) (hin : sr.read ≤ sr.maxBytes) :
    (SafeReader.Read step sr s k).2.2.1.read ≤ sr.maxBytes ∧
    (SafeReader.Read step sr s k).2.2.1.read
      = sr.read + (SafeReader.Read step sr s k).1 ∧
    (SafeReader.Read step sr s k).2.2.1.maxBytes = sr.maxBytes := by
  by_cases hfull : sr.maxBytes ≤ sr.read
  · simp [SafeReader.Read, hfull, hin]
  · simp only [SafeReader.Read, hfull, if_false]
    refine ⟨?_, by simp, by simp⟩
    show sr.read +
        (step s (if sr.maxBytes - sr.read < k then sr.maxBytes - sr.read else k)).1
      ≤ sr.maxBytes
    by_cases hc : sr.maxBytes - sr.read < k
    · have hrem := hstep s (sr.maxBytes - sr.read)
      simp only [hc, if_true]
      omega
    · have hrem := hstep s k
      simp only [hc, if_false]
      omega

/-- Totals over any request sequence stay within the budget and match
the counter. -/
theorem runReads_total {σ : Type} (step : σ → Nat → Nat × σ)
    (hstep : ∀ (s : σ) (k : Nat), (step s k).1 ≤ k) (ks : List Nat) :
    ∀ (sr : SafeReader) (s : σ), sr.read ≤ sr.maxBytes →
      (runReads step sr s ks).2.1.read
        = sr.read + (runReads step sr s ks).1 ∧
      (runReads step sr s ks).2.1.read ≤ sr.maxBytes := by
  induction ks with
  | nil => intro sr s h; exact ⟨by simp [runReads], by simpa [runReads] using h⟩
  | cons k ks ih =>
    intro sr s h
    obtain ⟨h1, h2, h3⟩ := SafeReader.read_step step hstep sr s k h
    rcases hR : SafeReader.Read step sr s k with ⟨n, eof, sr2, s2⟩
    rw [hR] at h1 h2 h3
    simp only at h1 h2 h3
    have hrest := ih sr2 s2 (by omega)
    rcases hT : runReads step sr2 s2 ks with ⟨tot, srf, sf⟩
    rw [hT] at hrest
    simp only at hrest
    have hexp : runReads step sr s (k :: ks) = (n + tot, srf, sf) := by
      simp [runReads, hR, hT]
    rw [hexp]
    simp only
    omega

/-- C10: across any sequence of Read calls on a fresh SafeReader, the
cumulative number of bytes returned never exceeds maxBytes (for any
underlying reader honouring the io.Reader contract of returning at most
the requested count), and once the cumulative count has reached maxBytes
every further Read returns (0, io.EOF) leaving both the SafeReader and
the underlying reader untouched. -/
theorem c10_theorem (σ : Type) (step : σ → Nat → Nat × σ)
    (hstep : ∀ (s : σ) (k : Nat), (step s k).1 ≤ k)
    (maxBytes : Nat) (s0 : σ) (ks : List Nat)
    (sr : SafeReader) (s : σ) (k : Nat) (hsat : sr.maxBytes ≤ sr.read) :
    (runReads step (NewSafeReader maxBytes) s0 ks).1 ≤ maxBytes ∧
    SafeReader.Read step sr s k = (0, true, sr, s) := by
  constructor
  · have h := runReads_total step hstep ks (NewSafeReader maxBytes) s0
      (by simp [NewSafeReader])
    have h0 : (NewSafeReader maxBytes).read = 0 := rfl
    have hM : (NewSafeReader maxBytes).maxBytes = maxBytes := rfl
    rw [h0, hM] at h
    omega
  · simp [SafeReader.Read, hsat]

/-- C10 witness: `c10_theorem` with a concrete greedy underlying reader,
budget 3 and three 2-byte requests, plus a saturated reader state. -/
theorem c10_witness :
    (runReads (fun (s : Unit) (k : Nat) => (k, s)) (NewSafeReader 3) () [2, 2, 2]).1 ≤ 3 ∧
    SafeReader.Read (fun (s : Unit) (k : Nat) => (k, s))
        ⟨3, 3⟩ () 5 = (0, true, ⟨3, 3⟩, ()) :=
  c10_theorem Unit (fun s k => (k, s)) (fun _ k => Nat.le_refl k)
    3 () [2, 2, 2] ⟨3, 3⟩ () 5 (Nat.le_refl 3)

/-- Errors the streaming goroutine can send on its error channel (pipe
and start failures cannot occur once the line stream exists; the
scanner of a synthetic in-memory stream reports no read error). -/
inductive StreamErr where
  | decodeFailure
  | waitFailure (e : ClaudeError)
deriving DecidableEq

/-- What the consumer observes from one streaming session: the messages
sent on the message channel in order, the errors sent on the error
channel, and whether both channels were closed (the source closes both
via defer on every path). -/
structure StreamOutcome (M : Type) where
  messages : List M
  errors : List StreamErr
  closedBoth : Bool
deriving DecidableEq

/-- The scan loop of `StreamPrompt`: skip blank lines (`TrimSpace == ""`),
decode each remaining line, stop with a decode failure on the first
undecodable line; messages already sent are kept. -/
def scanLines {M : Type} (decode : String → Option M) :
    List String → List M × Option StreamErr
  | [] => ([], none)
  | l :: ls =>
    if goTrimSpace l = "" then scanLines decode ls
    else
      match decode l with
      | none => ([], some .decodeFailure)
      | some m =>
        let rest := scanLines decode ls
        (m :: rest.1, rest.2)

/-- Sequential semantics of the `StreamPrompt` goroutine body for an
uncancelled context and an always-ready consumer: scan the stdout lines,
then on clean exit close both channels with no error; on abnormal exit
classify the captured stderr through `ParseError` and send it; a decode
failure aborts the scan and is sent instead. The JSON decoder is
abstracted as `decode`. -/
def StreamPrompt {M : Type} (decode : String → Option M) (lines : List String)
    (exitOk : Bool) (stderrText : String) (exitCode : Int) : StreamOutcome M :=
  let scanned := scanLines decode lines
  match scanned.2 with
  | some err => { messages := scanned.1, errors := [err], closedBoth := true }
  | none =>
    if exitOk then
      { messages := scanned.1, errors := [], closedBoth := true }
    else
      { messages := scanned.1
        errors := [.waitFailure (ParseError stderrText exitCode)]
        closedBoth := true }

/-- With every non-blank line decodable, the scan delivers exactly the
decoded non-blank lines, in order, with no error. -/
theorem scanLines_wf (M : Type) (decode : String → Option M) :
    ∀ lines : List String,
      (∀ l ∈ lines, goTrimSpace l ≠ "" → (decode l).isSome = true) →
      scanLines decode lines =
        (lines.filterMap fun l => if goTrimSpace l = "" then none else decode l,
          none) := by
  intro lines
  induction lines with
  | nil => intro h; rfl
  | cons l ls ih =>
    intro h
    by_cases hb : goTrimSpace l = ""
    · simp only [scanLines, hb, if_pos, List.filterMap_cons, if_true]
      exact ih fun x hx => h x (List.mem_cons_of_mem _ hx)
    · have hsome := h l (List.mem_cons_self l ls) hb
      obtain ⟨m, hm⟩ := Option.isSome_iff_exists.mp hsome
      simp only [scanLines, hb, if_false, hm, List.filterMap_cons]
      rw [ih fun x hx => h x (List.mem_cons_of_mem _ hx)]

/-- Count of delivered messages equals the count of non-blank lines. -/
theorem scanCount (M : Type) (decode : String → Option M) :
    ∀ lines : List String,
      (∀ l ∈ lines, goTrimSpace l ≠ "" → (decode l).isSome = true) →
      (lines.filterMap fun l =>
        if goTrimSpace l = "" then none else decode l).length
        = (lines.filter fun l => !(goTrimSpace l == "")).length := by
  intro lines
  induction lines with
  | nil => intro h; rfl
  | cons l ls ih =>
    intro h
    by_cases hb : goTrimSpace l = ""
    · simp only [List.filterMap_cons, List.filter_cons, hb, if_pos, if_true]
      simp only [hb, beq_self_eq_true, Bool.not_true, if_false, Bool.false_eq_true]
      exact ih fun x hx => h x (List.mem_cons_of_mem _ hx)
    · have hsome := h l (List.mem_cons_self l ls) hb
      obtain ⟨m, hm⟩ := Option.isSome_iff_exists.mp hsome
      have hbeq : (goTrimSpace l == "") = false := by
        simp [hb]
      simp only [List.filterMap_cons, List.filter_cons, hb, if_false, hm, hbeq,
        Bool.not_false, if_true, List.length_cons]
      rw [ih fun x hx => h x (List.mem_cons_of_mem _ hx)]

/-- C6: for a stdout stream whose non-blank lines are all well-formed
(decodable) followed by a clean process exit, the pipeline delivers
exactly the decoded messages of the non-blank lines, in stream order
(one message per non-blank line), then closes both channels with no
error sent. -/
theorem c6_theorem (M : Type) (decode : String → Option M)
    (lines : List String) (stderrText : String)
    (hwf : ∀ l ∈ lines, goTrimSpace l ≠ "" → (decode l).isSome = true) :
    (StreamPrompt decode lines true stderrText 0).messages
      = (lines.filterMap fun l => if goTrimSpace l = "" then none else decode l) ∧
    (StreamPrompt decode lines true stderrText 0).messages.length
      = (lines.filter fun l => !(goTrimSpace l == "")).length ∧
    (StreamPrompt decode lines true stderrText 0).errors = [] ∧
    (StreamPrompt decode lines true stderrText 0).closedBoth = true := by
  have hscan := scanLines_wf M decode lines hwf
  have hcount := scanCount M decode lines hwf
  simp only [StreamPrompt, hscan]
  exact ⟨rfl, hcount, rfl, rfl⟩

/-- C6 witness: `c6_theorem` on a concrete three-line stream with one
blank line, with the identity decoder. -/
theorem c6_witness :
    (StreamPrompt (fun l => some l) ["a", "", "b"] true "" 0).messages
      = (["a", "", "b"].filterMap fun l =>
          if goTrimSpace l = "" then none else some l) ∧
    (StreamPrompt (fun l => some l) ["a", "", "b"] true "" 0).messages.length
      = (["a", "", "b"].filter fun l => !(goTrimSpace l == "")).length ∧
    (StreamPrompt (fun l => some l) ["a", "", "b"] true "" 0).errors = [] ∧
    (StreamPrompt (fun l => some l) ["a", "", "b"] true "" 0).closedBoth = true :=
  c6_theorem String (fun l => some l) ["a", "", "b"] "" (by decide)
